import Mathlib

/-!
# Verification of the approximate C1 spline basis construction (gismo)

Shallow embedding of `src/gsUnstructuredSplines/gsApproxC1Spline.hpp` and the
power-iteration loop of `src/gsModeling/gsParametrization.hpp`.

Knot vectors are represented by their unique break points with multiplicities
(first break, interior breaks, last break) together with the polynomial degree;
break points are rationals.  The `gsKnotVector` / `gsBSplineBasis` /
`gsTensorBSplineBasis` primitives used by the source live outside the provided
sources, so they are modelled from the spec (standard B-spline operations).
-/

namespace GismoC1

/-- Modelled from the spec: a clamped B-spline knot vector (`gsKnotVector`,
an external numeric primitive per the spec's non-goals), kept as the unique
break points with multiplicities plus the degree. -/
structure KnotVector where
  degree : ℕ
  firstBreak : ℚ
  firstMult : ℕ
  interior : List (ℚ × ℕ)
  lastBreak : ℚ
  lastMult : ℕ
deriving DecidableEq, Repr

instance : Inhabited KnotVector := ⟨⟨0, 0, 1, [], 1, 1⟩⟩

namespace KnotVector

/-- Modelled from the spec: `gsKnotVector::unique()`, the unique break points. -/
def unique (kv : KnotVector) : List ℚ :=
  kv.firstBreak :: (kv.interior.map Prod.fst ++ [kv.lastBreak])

/-- Modelled from the spec: `gsKnotVector::multiplicities()`, the multiplicity
of each unique break point. -/
def multiplicities (kv : KnotVector) : List ℕ :=
  kv.firstMult :: (kv.interior.map Prod.snd ++ [kv.lastMult])

/-- Modelled from the spec: `gsKnotVector::reduceMultiplicity(i)`, which lowers
the multiplicity of every interior knot by `i`, dropping knots whose
multiplicity is exhausted.  End knots are untouched. -/
def reduceMultiplicity (i : ℕ) (kv : KnotVector) : KnotVector :=
  { kv with interior :=
      kv.interior.filterMap (fun q => if q.2 ≤ i then none else some (q.1, q.2 - i)) }

/-- Modelled from the spec: `gsKnotVector::increaseMultiplicity(i)`, which
raises the multiplicity of every interior knot by `i`. -/
def increaseMultiplicity (i : ℕ) (kv : KnotVector) : KnotVector :=
  { kv with interior := kv.interior.map (fun q => (q.1, q.2 + i)) }

/-- Modelled from the spec: `gsKnotVector::degreeIncrease(i)`, which raises the
degree by `i`, repeating only the two end knots (interior knots are intact). -/
def degreeIncrease (i : ℕ) (kv : KnotVector) : KnotVector :=
  { kv with degree := kv.degree + i, firstMult := kv.firstMult + i,
            lastMult := kv.lastMult + i }

/-- Modelled from the spec: `gsKnotVector::degreeDecrease(i)`, which lowers the
degree by `i`, removing only repeated end knots (interior knots are intact). -/
def degreeDecrease (i : ℕ) (kv : KnotVector) : KnotVector :=
  { kv with degree := kv.degree - i, firstMult := kv.firstMult - i,
            lastMult := kv.lastMult - i }

/-- Modelled from the spec: `gsBSplineBasis::degreeElevate(i)`, raising the
degree by `i` while keeping the smoothness: every multiplicity grows by `i`. -/
def degreeElevate (i : ℕ) (kv : KnotVector) : KnotVector :=
  { kv with degree := kv.degree + i, firstMult := kv.firstMult + i,
            interior := kv.interior.map (fun q => (q.1, q.2 + i)),
            lastMult := kv.lastMult + i }

/-- Modelled from the spec: `gsBSplineBasis::reduceContinuity(i)`, lowering the
continuity at every interior break point by `i` (multiplicity grows by `i`). -/
def reduceContinuity (i : ℕ) (kv : KnotVector) : KnotVector :=
  { kv with interior := kv.interior.map (fun q => (q.1, q.2 + i)) }

/-- Sorted insertion of a break point into the interior list, merging
multiplicities when the break point is already present. -/
def insertInterior (x : ℚ) (m : ℕ) : List (ℚ × ℕ) → List (ℚ × ℕ)
  | [] => [(x, m)]
  | q :: rest =>
      if x < q.1 then (x, m) :: q :: rest
      else if x = q.1 then (q.1, q.2 + m) :: rest
      else q :: insertInterior x m rest

/-- Modelled from the spec: `gsBSplineBasis::insertKnot(x, m)` for an interior
parameter `x` (the source only inserts strictly interior knots). -/
def insertKnot (x : ℚ) (m : ℕ) (kv : KnotVector) : KnotVector :=
  { kv with interior := insertInterior x m kv.interior }

/-- The expanded (repeated) knot sequence. -/
def fullKnots (kv : KnotVector) : List ℚ :=
  List.replicate kv.firstMult kv.firstBreak ++
    kv.interior.foldr (fun q acc => List.replicate q.2 q.1 ++ acc) [] ++
    List.replicate kv.lastMult kv.lastBreak

/-- Modelled from the spec: `knot(i)`, the `i`-th knot of the repeated
sequence. -/
def knotAt (i : ℕ) (kv : KnotVector) : ℚ :=
  kv.fullKnots.getD i 0

/-- Modelled from the spec: the number of B-spline basis functions over this
knot vector (`size()` = number of knots − degree − 1). -/
def size (kv : KnotVector) : ℕ :=
  (kv.firstMult + (kv.interior.map Prod.snd).sum + kv.lastMult) - kv.degree - 1

end KnotVector

/-- Modelled from the spec: the constructor `gsKnotVector(knots)` applied to a
list of unique knots (each appearing once, hence deduced degree 0). -/
def ofUnique (u : List ℚ) : KnotVector :=
  { degree := 0
    firstBreak := u.headD 0
    firstMult := 1
    interior := (u.drop 1).dropLast.map (fun b => (b, 1))
    lastBreak := (u.drop 1).getLastD (u.headD 0)
    lastMult := 1 }

/-- Modelled from the spec: a 2D tensor-product B-spline basis
(`gsTensorBSplineBasis`), as its two directional knot vectors. -/
structure TPBasis where
  compU : KnotVector
  compV : KnotVector
deriving DecidableEq, Repr

instance : Inhabited TPBasis := ⟨⟨default, default⟩⟩

namespace TPBasis

/-- Modelled from the spec: `component(dir)` of a tensor-product basis. -/
def component (b : TPBasis) (dir : ℕ) : KnotVector :=
  if dir = 0 then b.compU else b.compV

/-- Replace the directional component `dir`. -/
def setComponent (b : TPBasis) (dir : ℕ) (kv : KnotVector) : TPBasis :=
  if dir = 0 then { b with compU := kv } else { b with compV := kv }

/-- Modelled from the spec: `degree(dir)`. -/
def degree (b : TPBasis) (dir : ℕ) : ℕ :=
  (b.component dir).degree

/-- Modelled from the spec: `gsTensorBSplineBasis::degreeElevate(i, dir)`,
smoothness-preserving degree elevation in one direction. -/
def degreeElevate (b : TPBasis) (i : ℕ) (dir : ℕ) : TPBasis :=
  b.setComponent dir ((b.component dir).degreeElevate i)

/-- Modelled from the spec: `gsTensorBSplineBasis::reduceContinuity(i)`,
reducing the interior continuity by `i` in both directions. -/
def reduceContinuity (b : TPBasis) (i : ℕ) : TPBasis :=
  { compU := b.compU.reduceContinuity i, compV := b.compV.reduceContinuity i }

/-- Modelled from the spec: `insertKnot(x, dir, m)`. -/
def insertKnot (b : TPBasis) (x : ℚ) (dir : ℕ) (m : ℕ) : TPBasis :=
  b.setComponent dir ((b.component dir).insertKnot x m)

/-- Modelled from the spec: `knot(dir, i)`. -/
def knot (b : TPBasis) (dir : ℕ) (i : ℕ) : ℚ :=
  (b.component dir).knotAt i

/-- Modelled from the spec: number of tensor-product basis functions. -/
def size (b : TPBasis) : ℕ := b.compU.size * b.compV.size

end TPBasis

/-- Modelled from the spec: the global auxiliary gluing-data degree `p_tilde`
(referenced without declaration in the source; the spec pins the default 3). -/
def p_tilde : ℕ := 3

/-- Modelled from the spec: the global auxiliary gluing-data regularity
`r_tilde` (spec default `p_tilde - 2 = 1`). -/
def r_tilde : ℕ := 1

/-- `gsApproxC1Spline::createPlusMinusSpace` (two-sided interface overload,
gsApproxC1Spline.hpp lines 653-742): the plus space is the second input with
interior multiplicities reduced by one unless `p - r == 1`; the minus space is
additionally lowered one degree.  `r` is the option `discreteRegularity`. -/
def createPlusMinusSpaceInt (r : ℤ) (kv1 kv2 _kv1_patch _kv2_patch : KnotVector) :
    KnotVector × KnotVector :=
  let p : ℕ := max kv1.degree kv2.degree
  let kv1_result := kv2
  let kv1_result := if (p : ℤ) - r ≠ 1 then kv1_result.reduceMultiplicity 1 else kv1_result
  let kv2_result := kv2.degreeDecrease 1
  let kv2_result := if (p : ℤ) - r ≠ 1 then kv2_result.reduceMultiplicity 1 else kv2_result
  (kv1_result, kv2_result)

/-- The diagnostics the two-sided `createPlusMinusSpace` writes to `gsInfo`
before proceeding (lines 674-685). -/
def createPlusMinusSpaceIntWarnings (kv1 kv2 kv1_patch _kv2_patch : KnotVector) :
    List String :=
  (if kv1.unique ≠ kv2.unique then ["NOT IMPLEMENTED YET 1: Plus, Minus space"] else []) ++
  (if kv1.degree ≠ kv2.degree then ["NOT IMPLEMENTED YET 2: Plus, Minus space"] else []) ++
  (if kv1_patch.unique.getD 1 0 ≠ 1 then ["NOT IMPLEMENTED YET 3: Plus, Minus space"] else []) ++
  (if kv1.multiplicities ≠ kv2.multiplicities then ["NOT IMPLEMENTED YET 4: Plus, Minus space"] else [])

/-- `gsApproxC1Spline::createPlusMinusSpace` (one-sided boundary overload,
lines 745-789). -/
def createPlusMinusSpaceBdy (r : ℤ) (kv1 _kv1_patch : KnotVector) :
    KnotVector × KnotVector :=
  let p : ℕ := max kv1.degree 0
  let kv1_result := kv1
  let kv1_result := if (p : ℤ) - r ≠ 1 then kv1_result.reduceMultiplicity 1 else kv1_result
  let kv2_result := kv1.degreeDecrease 1
  let kv2_result := if (p : ℤ) - r ≠ 1 then kv2_result.reduceMultiplicity 1 else kv2_result
  (kv1_result, kv2_result)

/-- `gsApproxC1Spline::createGluingDataSpace` (lines 791-840): a knot vector on
the shared unique break points of degree `p_tilde` with interior multiplicity
`p_tilde - r_tilde`. -/
def createGluingDataSpace (_kv1 kv2 _kv1_patch _kv2_patch : KnotVector) : KnotVector :=
  let knot_vector := kv2.unique
  ((ofUnique knot_vector).degreeIncrease p_tilde).increaseMultiplicity (p_tilde - r_tilde - 1)

/-- The diagnostic `createGluingDataSpace` writes to `gsInfo` when the two
sides have different unique break points (line 807-808). -/
def createGluingDataSpaceWarnings (kv1 kv2 : KnotVector) : List String :=
  if kv1.unique ≠ kv2.unique then ["ERROR: Interfaces are not matching!!!"] else []

/-- `gsApproxC1Spline::createLokalEdgeSpace` (two-sided overload, lines
843-935). -/
def createLokalEdgeSpaceInt (kv_plus kv_minus kv_gD_1 _kv_gD_2 _kv_patch_1 _kv_patch_2 :
    KnotVector) : KnotVector × KnotVector :=
  let p_1 : ℕ := max (kv_plus.degree + kv_gD_1.degree - 1) (kv_minus.degree + kv_gD_1.degree)
  let knots_unique_plus := kv_plus.unique
  let kv1_result := (ofUnique knots_unique_plus).degreeIncrease p_1
  let kv1_result :=
    if knots_unique_plus.getD 1 0 ≠ 1 then
      let r_plus : ℤ := (kv_plus.degree : ℤ) - (kv_plus.multiplicities.getD 1 0 : ℕ)
      let r_minus : ℤ := (kv_minus.degree : ℤ) - (kv_minus.multiplicities.getD 1 0 : ℕ)
      let rt : ℤ := (kv_gD_1.degree : ℤ) - (kv_gD_1.multiplicities.getD 1 0 : ℕ)
      let r : ℤ := min rt (min r_plus r_minus)
      kv1_result.increaseMultiplicity ((p_1 : ℤ) - r - 1).toNat
    else kv1_result
  (kv1_result, kv1_result)

/-- `gsApproxC1Spline::createLokalEdgeSpace` (one-sided boundary overload,
lines 937-960). -/
def createLokalEdgeSpaceBdy (kv_plus kv_minus _kv_patch_1 : KnotVector) : KnotVector :=
  let p_1 : ℕ := max kv_plus.degree kv_minus.degree
  let knots_unique_plus := kv_plus.unique
  let kv1_result := (ofUnique knots_unique_plus).degreeIncrease p_1
  if knots_unique_plus.getD 1 0 ≠ 1 then
    let r_plus : ℤ := (kv_plus.degree : ℤ) - (kv_plus.multiplicities.getD 1 0 : ℕ)
    let r_minus : ℤ := (kv_minus.degree : ℤ) - (kv_minus.multiplicities.getD 1 0 : ℕ)
    let r : ℤ := min r_plus r_minus
    kv1_result.increaseMultiplicity ((p_1 : ℤ) - r - 1).toNat
  else kv1_result

end GismoC1

namespace GismoC1

/-! ## Vertex classification and vertex spaces (init, lines 210-325) -/

/-- The vertex-space adjustment applied to every patch basis of a non-boundary
vertex group (init, lines 251-272 and 285-309): elevate by `p_tilde - 1` in
both directions, then reduce continuity by one when `r ≠ 1`, and further by
`r - r_tilde - 1` when `r_tilde < r - 1`. -/
def vertexBasisFor (r : ℤ) (basis : TPBasis) : TPBasis :=
  let b := (basis.degreeElevate (p_tilde - 1) 0).degreeElevate (p_tilde - 1) 1
  let b := if r ≠ 1 then b.reduceContinuity 1 else b
  let b := if (r_tilde : ℤ) < r - 1 then b.reduceContinuity (r - (r_tilde : ℤ) - 1).toNat else b
  b

/-- The adjustment applied at a boundary vertex (init, lines 227-231): reduce
continuity by one exactly when `degree(0) - r == 1`. -/
def boundaryVertexBasisFor (r : ℤ) (basis : TPBasis) : TPBasis :=
  if (basis.degree 0 : ℤ) - r = 1 then basis.reduceContinuity 1 else basis

/-- One iteration of the vertex loop of `init` (lines 211-325) for a single
vertex group: the list of `(patch, corner, vertex basis, kind)` assignments
made through `setVertexBasis` / `setKindOfVertex`.  `countIfaces` models the
external `gsMultiPatch::computeTopology` + `interfaces().size()` of the
temporary sub-multipatch built from the involved patches. -/
def vertexLoopGroup (r : ℤ) (multiBasis : List TPBasis) (countIfaces : List ℕ → ℕ)
    (group : List (ℕ × ℕ)) : List (ℕ × ℕ × TPBasis × ℤ) :=
  let patchIndex := group.map Prod.fst
  let vertIndex := group.map Prod.snd
  if patchIndex.length = 1 then
    let patch_1 := patchIndex.headD 0
    let vertex_1 := vertIndex.headD 0
    [(patch_1, vertex_1, boundaryVertexBasisFor r (multiBasis.getD patch_1 default), -1)]
  else if 1 < patchIndex.length then
    let nInt := countIfaces patchIndex
    if patchIndex.length = nInt then
      group.map (fun pc => (pc.1, pc.2, vertexBasisFor r (multiBasis.getD pc.1 default), 0))
    else if nInt < patchIndex.length then
      group.map (fun pc => (pc.1, pc.2, vertexBasisFor r (multiBasis.getD pc.1 default), 1))
    else []
  else []

/-! ## The interior pass of compute (lines 350-370) -/

/-- The per-patch data the interior pass of `compute` reads: the two inner
basis component sizes and the row/column extents of the patch container
(`size_rows()` / `size_cols()`, computed by the external `gsC1Basis`). -/
structure PatchDims where
  dimU : ℕ
  dimV : ℕ
  sizeRows : ℕ
  sizeCols : ℕ
deriving DecidableEq, Repr

/-- The sparse-matrix entries the interior pass inserts for one patch
(lines 360-366): `row_i` runs over the interior lattice with the `v` index
outer, columns are `j*dim_u + i` for `2 ≤ i < dim_u - 2`, `2 ≤ j < dim_v - 2`,
and every value is `1.0`. -/
def interiorEntriesPatch (shiftRow shiftCol dimU dimV : ℕ) : List (ℕ × ℕ × ℚ) :=
  (((List.range (dimV - 4)).flatMap (fun jj =>
      (List.range (dimU - 4)).map (fun ii => (jj + 2) * dimU + (ii + 2)))).enum).map
    (fun q => (shiftRow + q.1, shiftCol + q.2, (1 : ℚ)))

/-- The whole interior pass of `compute` (lines 354-370): per-patch entries
with the row/column shifts advanced by `size_rows()` / `size_cols()`. -/
def interiorPass : List PatchDims → ℕ → ℕ → List (ℕ × ℕ × ℚ)
  | [], _, _ => []
  | q :: ps, sr, sc =>
      interiorEntriesPatch sr sc q.dimU q.dimV ++
        interiorPass ps (sr + q.sizeRows) (sc + q.sizeCols)

/-- The interior pass started at shifts `(0, 0)` as in `compute`. -/
def computeInteriorPass (patches : List PatchDims) : List (ℕ × ℕ × ℚ) :=
  interiorPass patches 0 0

/-! ## The power-iteration solver (gsParametrization.hpp, lines 158-205) -/

/-- Row-times-column dot product (entries beyond a row's length read as 0,
mirroring the fixed matrix dimensions of the source). -/
def dotCol (row : List ℚ) (B : List (List ℚ)) (j : ℕ) : ℚ :=
  ((row.zip B).map (fun q => q.1 * q.2.getD j 0)).sum

/-- Dense matrix product, `A` of size `m × k`, `B` of size `k × n`. -/
def matMul (A B : List (List ℚ)) (n : ℕ) : List (List ℚ) :=
  A.map (fun row => (List.range n).map (fun j => dotCol row B j))

/-- The `LHS` matrix of `constructAndSolveEquationSystem_2` (lines 163-185):
rows below `n` hold the convex-combination weights, rows from `n` on have a
unit diagonal (their remaining entries, uninitialized in the source, are
modelled as 0). -/
def buildLHS (lambdas : ℕ → List ℚ) (n N : ℕ) : List (List ℚ) :=
  (List.range N).map (fun i =>
    if i < n then (List.range N).map (fun j => (lambdas i).getD j 0)
    else (List.range N).map (fun j => if j = i then (1 : ℚ) else 0))

/-- The initial `RHS` (lines 176-184): interior rows start at `(0.5, 0.5)`,
boundary rows hold the fixed parameter points. -/
def buildRHS (n N : ℕ) (points : List (ℚ × ℚ)) : List (List ℚ) :=
  (List.range N).map (fun i =>
    if i < n then [(1 : ℚ)/2, (1 : ℚ)/2]
    else [(points.getD i (0, 0)).1, (points.getD i (0, 0)).2])

/-- State threaded through the power-iteration loop, with a counter of how
many times the loop body has run. -/
structure PowerIterState where
  RHS : List (List ℚ)
  points : List (ℚ × ℚ)
  iters : ℕ
deriving Repr

/-- One body execution of the loop at lines 191-204: `sol = LHS * RHS`,
`RHS = sol`, and the first `n` parameter points are overwritten from `sol`
(the Paraview export every 5th iteration is I/O only and not modelled). -/
def powerStep (LHS : List (List ℚ)) (n : ℕ) (st : PowerIterState) : PowerIterState :=
  let sol := matMul LHS st.RHS 2
  { RHS := sol
    points := st.points.mapIdx (fun i q =>
      if i < n then ((sol.getD i []).getD 0 0, (sol.getD i []).getD 1 0) else q)
    iters := st.iters + 1 }

/-- `gsParametrization::constructAndSolveEquationSystem_2` (lines 158-205):
builds `LHS`/`RHS` and runs the loop `for (k = 0; k <= 100; k++)` with no
convergence check or early exit. -/
def constructAndSolveEquationSystem_2 (lambdas : ℕ → List ℚ) (n N : ℕ)
    (points : List (ℚ × ℚ)) : PowerIterState :=
  let LHS := buildLHS lambdas n N
  let RHS0 := buildRHS n N points
  (List.range 101).foldl (fun st _ => powerStep LHS n st)
    { RHS := RHS0, points := points, iters := 0 }

end GismoC1

namespace GismoC1

/-! ## The per-patch container, init and compute as a state machine -/

/-- Modelled from the spec: the per-patch container `gsC1Basis` (outside the
provided sources): the component bases recorded by the `init` setters, keyed by
side (1-4) or corner (1-4), plus the frozen row/column extents. -/
structure C1Data where
  innerBasis : TPBasis
  basisPlus : List (ℕ × KnotVector)
  basisMinus : List (ℕ × KnotVector)
  basisGeo : List (ℕ × KnotVector)
  basisGluingData : List (ℕ × KnotVector)
  edgeBasis : List (ℕ × TPBasis)
  vertexBasis : List (ℕ × TPBasis)
  kindOfVertex : List (ℕ × ℤ)
  sizeRowsV : ℕ
  sizeColsV : ℕ
  initialized : Bool
deriving DecidableEq, Repr

/-- Modelled from the spec: a freshly constructed `gsC1Basis(m_patches, np)`
container before any setter has run. -/
def emptyC1Data : C1Data :=
  ⟨default, [], [], [], [], [], [], [], 0, 0, false⟩

instance : Inhabited C1Data := ⟨emptyC1Data⟩

namespace C1Data

/-- Modelled from the spec: `setInnerBasis`. -/
def setInnerBasis (b : TPBasis) (c : C1Data) : C1Data := { c with innerBasis := b }

/-- Modelled from the spec: `setBasisPlus(b, side)`. -/
def setBasisPlus (b : KnotVector) (side : ℕ) (c : C1Data) : C1Data :=
  { c with basisPlus := (side, b) :: c.basisPlus }

/-- Modelled from the spec: `setBasisMinus(b, side)`. -/
def setBasisMinus (b : KnotVector) (side : ℕ) (c : C1Data) : C1Data :=
  { c with basisMinus := (side, b) :: c.basisMinus }

/-- Modelled from the spec: `setBasisGeo(b, side)`. -/
def setBasisGeo (b : KnotVector) (side : ℕ) (c : C1Data) : C1Data :=
  { c with basisGeo := (side, b) :: c.basisGeo }

/-- Modelled from the spec: `setBasisGluingData(b, side)`. -/
def setBasisGluingData (b : KnotVector) (side : ℕ) (c : C1Data) : C1Data :=
  { c with basisGluingData := (side, b) :: c.basisGluingData }

/-- Modelled from the spec: `setEdgeBasis(b, side)`. -/
def setEdgeBasis (b : TPBasis) (side : ℕ) (c : C1Data) : C1Data :=
  { c with edgeBasis := (side, b) :: c.edgeBasis }

/-- Modelled from the spec: `setVertexBasis(b, corner)`. -/
def setVertexBasis (b : TPBasis) (corner : ℕ) (c : C1Data) : C1Data :=
  { c with vertexBasis := (corner, b) :: c.vertexBasis }

/-- Modelled from the spec: `setKindOfVertex(kind, corner)`. -/
def setKindOfVertex (kind : ℤ) (corner : ℕ) (c : C1Data) : C1Data :=
  { c with kindOfVertex := (corner, kind) :: c.kindOfVertex }

/-- Look up the component assigned to a key in an association list written by
the setters (the most recent assignment wins). -/
def lookupTP (l : List (ℕ × TPBasis)) (k : ℕ) : Option TPBasis :=
  (l.find? (fun q => q.1 = k)).map Prod.snd

/-- Modelled from the spec: `gsC1Basis::init()` freezes the row/column extents;
`size_rows()` is the sum of the basis sizes of the 9 components (interior,
4 edges, 4 vertices), `size_cols()` the reduced per-patch basis size. -/
def initRanges (c : C1Data) : C1Data :=
  { c with
    sizeRowsV := c.innerBasis.size +
      ((List.range 4).map (fun s => ((lookupTP c.edgeBasis (s + 1)).map TPBasis.size).getD 0)).sum +
      ((List.range 4).map (fun s => ((lookupTP c.vertexBasis (s + 1)).map TPBasis.size).getD 0)).sum
    sizeColsV := c.innerBasis.size
    initialized := true }

end C1Data

/-- The read-only multi-patch input: patch count, per-patch geometry bases and
the topology lists (interfaces as `(patch1, side1, patch2, side2)`). -/
structure MultiPatchData where
  nPatches : ℕ
  patchBases : List TPBasis
  interfaces : List (ℕ × ℕ × ℕ × ℕ)
  boundaries : List (ℕ × ℕ)
  vertices : List (List (ℕ × ℕ))
deriving DecidableEq, Repr

/-- The mutable state of `gsApproxC1Spline`: the input geometry and
multi-basis, the per-patch containers and the global matrix data. -/
structure SplineState where
  patches : MultiPatchData
  multiBasis : List TPBasis
  bases : List C1Data
  matrixRows : ℕ
  matrixCols : ℕ
  matrixEntries : List (ℕ × ℕ × ℚ)
  matrixCompressed : Bool
deriving DecidableEq, Repr

/-- The inner-space adjustment of `init` (lines 34-59), applied to a by-value
copy of the patch's multi-basis: when `degree(uv) - r == 1` the knot at index
`degree+1` and its mirror are inserted once. -/
def innerBasisAdjust (r : ℤ) (basis0 : TPBasis) : TPBasis :=
  let step := fun (basis : TPBasis) (uv : ℕ) =>
    if (basis.degree uv : ℤ) - r = 1 then
      let knot_u := basis.knot uv (basis.degree uv + 1)
      let basis := if knot_u ≠ 1 then basis.insertKnot knot_u uv 1 else basis
      if knot_u ≠ 1/2 ∧ knot_u ≠ 1 then basis.insertKnot (1 - knot_u) uv 1 else basis
    else basis
  step (step basis0 0) 1

/-- `init`, lines 25-31: one fresh container per patch. -/
def initPhaseContainers (s : SplineState) : SplineState :=
  { s with bases := (List.range s.patches.nPatches).map (fun _ => emptyC1Data) }

/-- `init`, lines 34-59: the interior spline space per patch. -/
def initPhaseInner (r : ℤ) (s : SplineState) : SplineState :=
  let newBases :=
    (List.range s.patches.nPatches).foldl (fun b np =>
      b.modify (C1Data.setInnerBasis (innerBasisAdjust r (s.multiBasis.getD np default))) np)
      s.bases
  { s with bases := newBases }

/-- The body of the interface loop of `init` (lines 62-142) for one interface. -/
def interfaceStep (r : ℤ) (patches : MultiPatchData) (multiBasis : List TPBasis)
    (bases : List C1Data) (item : ℕ × ℕ × ℕ × ℕ) : List C1Data :=
  let patch_1 := item.1
  let side_1 := item.2.1
  let patch_2 := item.2.2.1
  let side_2 := item.2.2.2
  let dir_1 := if side_1 > 2 then 0 else 1
  let dir_2 := if side_2 > 2 then 0 else 1
  let basis_geo_1 := (multiBasis.getD patch_1 default).component (1 - dir_1)
  let basis_geo_2 := (multiBasis.getD patch_2 default).component (1 - dir_2)
  let kv_1 := (multiBasis.getD patch_1 default).component dir_1
  let kv_2 := (multiBasis.getD patch_2 default).component dir_2
  let kv_patch_1 := (patches.patchBases.getD patch_1 default).component dir_1
  -- line 87 of the source reads kv_patch_2 from patch_basis_1, not patch_basis_2
  let kv_patch_2 := kv_patch_1
  let pm := createPlusMinusSpaceInt r kv_1 kv_2 kv_patch_1 kv_patch_2
  let kv_gluingData := createGluingDataSpace kv_1 kv_2 kv_patch_1 kv_patch_2
  let bases := bases.modify (C1Data.setBasisPlus pm.1 side_1) patch_1
  let bases := bases.modify (C1Data.setBasisPlus pm.1 side_2) patch_2
  let bases := bases.modify (C1Data.setBasisMinus pm.2 side_1) patch_1
  let bases := bases.modify (C1Data.setBasisMinus pm.2 side_2) patch_2
  let bases := bases.modify (C1Data.setBasisGeo basis_geo_1 side_1) patch_1
  let bases := bases.modify (C1Data.setBasisGeo basis_geo_2 side_2) patch_2
  let bases := bases.modify (C1Data.setBasisGluingData kv_gluingData side_1) patch_1
  let bases := bases.modify (C1Data.setBasisGluingData kv_gluingData side_2) patch_2
  let e := createLokalEdgeSpaceInt pm.1 pm.2 kv_gluingData kv_gluingData kv_patch_1 kv_patch_2
  let basis_edge_1 : TPBasis :=
    if dir_1 = 0 then ⟨e.1, basis_geo_1⟩ else ⟨basis_geo_1, e.1⟩
  let basis_edge_2 : TPBasis :=
    if dir_2 = 0 then ⟨e.2, basis_geo_2⟩ else ⟨basis_geo_2, e.2⟩
  let bases := bases.modify (C1Data.setEdgeBasis basis_edge_1 side_1) patch_1
  bases.modify (C1Data.setEdgeBasis basis_edge_2 side_2) patch_2

/-- `init`, lines 62-142: the interface loop. -/
def initPhaseInterfaces (r : ℤ) (s : SplineState) : SplineState :=
  let newBases := s.patches.interfaces.foldl (interfaceStep r s.patches s.multiBasis) s.bases
  { s with bases := newBases }

/-- The body of the boundary loop of `init` (lines 144-208) for one boundary
side. -/
def boundaryStep (r : ℤ) (patches : MultiPatchData) (multiBasis : List TPBasis)
    (bases : List C1Data) (bit : ℕ × ℕ) : List C1Data :=
  let patch_1 := bit.1
  let side_1 := bit.2
  let dir_1 := if side_1 < 3 then 1 else 0
  let basis_geo_1 := (multiBasis.getD patch_1 default).component (1 - dir_1)
  let kv_1 := (multiBasis.getD patch_1 default).component dir_1
  let kv_patch_1 := (patches.patchBases.getD patch_1 default).component dir_1
  let pm := createPlusMinusSpaceBdy r kv_1 kv_patch_1
  let basis_geo_1 :=
    if (basis_geo_1.degree : ℤ) - r = 1 then basis_geo_1.reduceContinuity 1 else basis_geo_1
  let bases := bases.modify (C1Data.setBasisGeo basis_geo_1 side_1) patch_1
  let kv_edge_1 := createLokalEdgeSpaceBdy pm.1 pm.2 kv_patch_1
  let basis_edge_1_temp : TPBasis :=
    if dir_1 = 0 then ⟨kv_edge_1, basis_geo_1⟩ else ⟨basis_geo_1, kv_edge_1⟩
  let bases := bases.modify (C1Data.setEdgeBasis basis_edge_1_temp side_1) patch_1
  let bases := bases.modify (C1Data.setBasisPlus pm.1 side_1) patch_1
  bases.modify (C1Data.setBasisMinus pm.2 side_1) patch_1

/-- `init`, lines 144-208: the boundary loop. -/
def initPhaseBoundaries (r : ℤ) (s : SplineState) : SplineState :=
  let newBases := s.patches.boundaries.foldl (boundaryStep r s.patches s.multiBasis) s.bases
  { s with bases := newBases }

/-- `init`, lines 211-325: the vertex loop, writing the assignments of
`vertexLoopGroup` through `setVertexBasis` / `setKindOfVertex`. -/
def initPhaseVertices (r : ℤ) (countIfaces : List ℕ → ℕ) (s : SplineState) : SplineState :=
  let newBases := s.patches.vertices.foldl (fun b group =>
    (vertexLoopGroup r s.multiBasis countIfaces group).foldl (fun b a =>
      b.modify (fun c =>
        (C1Data.setKindOfVertex a.2.2.2 a.2.1 (C1Data.setVertexBasis a.2.2.1 a.2.1 c))) a.1)
      b) s.bases
  { s with bases := newBases }

/-- `init`, lines 327-329: freeze the per-patch layouts. -/
def initPhaseRanges (s : SplineState) : SplineState :=
  { s with bases := s.bases.map C1Data.initRanges }

/-- `init`, lines 332-342: clear and size the global matrix. -/
def initPhaseMatrix (s : SplineState) : SplineState :=
  { s with
    matrixRows := (s.bases.map C1Data.sizeRowsV).sum
    matrixCols := (s.bases.map C1Data.sizeColsV).sum
    matrixEntries := []
    matrixCompressed := false }

/-- `gsApproxC1Spline::init()` (lines 22-347).  `countIfaces` models the
external `computeTopology` of the temporary vertex sub-multipatch. -/
def initSpline (r : ℤ) (countIfaces : List ℕ → ℕ) (s : SplineState) : SplineState :=
  initPhaseMatrix (initPhaseRanges (initPhaseVertices r countIfaces
    (initPhaseBoundaries r (initPhaseInterfaces r (initPhaseInner r
      (initPhaseContainers s))))))

/-- One event of the `compute()` call sequence. -/
inductive ComputeEvent
  | interior (np : ℕ)
  | interfaceEdge (k : ℕ)
  | boundaryEdge (k : ℕ)
  | vertex (k : ℕ)
  | compress
deriving DecidableEq, Repr

/-- The phase number of an event: interior 0, interface builders 1, boundary
builders 2, vertex builders 3, compression 4. -/
def phaseOf : ComputeEvent → ℕ
  | .interior _ => 0
  | .interfaceEdge _ => 1
  | .boundaryEdge _ => 2
  | .vertex _ => 3
  | .compress => 4

/-- The interior-pass inputs read from the containers in `compute`
(lines 357-369). -/
def patchDimsOf (bases : List C1Data) : List PatchDims :=
  bases.map (fun c =>
    ⟨c.innerBasis.compU.size, c.innerBasis.compV.size, c.sizeRowsV, c.sizeColsV⟩)

/-- `gsApproxC1Spline::compute()` (lines 350-428), as a state transformer that
also emits its event trace.  The edge/vertex builders (`gsApproxC1Edge`,
`gsApproxC1Vertex`, outside the provided sources) are modelled from the spec as
oracles producing the matrix rows they write. -/
def computeSpline (ifaceB bdyB verB : ℕ → List (ℕ × ℕ × ℚ)) (s : SplineState) :
    SplineState × List ComputeEvent :=
  let nInt := s.patches.interfaces.length
  let nBdy := s.patches.boundaries.length
  let nVer := s.patches.vertices.length
  let s1 := { s with matrixEntries :=
      s.matrixEntries ++ computeInteriorPass (patchDimsOf s.bases) }
  let s2 := { s1 with matrixEntries :=
      s1.matrixEntries ++ (List.range nInt).flatMap ifaceB }
  let s3 := { s2 with matrixEntries :=
      s2.matrixEntries ++ (List.range nBdy).flatMap bdyB }
  let s4 := { s3 with matrixEntries :=
      s3.matrixEntries ++ (List.range nVer).flatMap verB }
  let s5 := { s4 with matrixCompressed := true }
  (s5,
    (List.range s.patches.nPatches).map ComputeEvent.interior ++
    (List.range nInt).map ComputeEvent.interfaceEdge ++
    (List.range nBdy).map ComputeEvent.boundaryEdge ++
    (List.range nVer).map ComputeEvent.vertex ++
    [ComputeEvent.compress])

end GismoC1

namespace GismoC1

/-! ## Concrete instances used by witnesses and counterexamples -/

instance : Inhabited PatchDims := ⟨⟨0, 0, 0, 0⟩⟩

/-- A degree-3 clamped knot vector on breaks `0, 2, 4` with interior
multiplicity 2 (continuity 1). -/
def sampleKV : KnotVector := ⟨3, 0, 4, [(2, 2)], 4, 4⟩

/-- A degree-3 clamped knot vector with no interior break (one-span patch
knot vector). -/
def samplePatchKV : KnotVector := ⟨3, 0, 4, [], 4, 4⟩

/-- Like `sampleKV` but with interior break `3`: same degree, different
unique break points. -/
def sampleKVb : KnotVector := ⟨3, 0, 4, [(3, 2)], 4, 4⟩

/-- A biquadratic tensor-product basis with one interior break of
multiplicity 1 in each direction (continuity 1). -/
def sampleTP : TPBasis := ⟨⟨2, 0, 3, [(2, 1)], 4, 3⟩, ⟨2, 0, 3, [(2, 1)], 4, 3⟩⟩

end GismoC1

namespace GismoC1

/-! ## Helper lemmas -/

theorem filterMap_reduceMult {l : List (ℚ × ℕ)} (h : ∀ q ∈ l, 2 ≤ q.2) :
    l.filterMap (fun q => if q.2 ≤ 1 then none else some (q.1, q.2 - 1))
      = l.map (fun q => (q.1, q.2 - 1)) := by
  induction l with
  | nil => rfl
  | cons a t ih =>
    have ha := h a (by simp)
    rw [List.filterMap_cons, List.map_cons, if_neg (by omega),
      ih (fun q hq => h q (by simp [hq]))]

theorem reduceMultiplicity_one_interior {kv : KnotVector} (h : ∀ q ∈ kv.interior, 2 ≤ q.2) :
    (kv.reduceMultiplicity 1).interior = kv.interior.map (fun q => (q.1, q.2 - 1)) :=
  filterMap_reduceMult h

theorem multiplicities_getD_one {kv : KnotVector} {m : ℕ} (hne : kv.interior ≠ [])
    (hall : ∀ q ∈ kv.interior, q.2 = m) : kv.multiplicities.getD 1 0 = m := by
  cases h : kv.interior with
  | nil => exact absurd h hne
  | cons a t =>
    have := hall a (by rw [h]; simp)
    simp [KnotVector.multiplicities, h, this]

theorem unique_getD_one {kv : KnotVector} {q0 : ℚ × ℕ} {t : List (ℚ × ℕ)}
    (h : kv.interior = q0 :: t) : kv.unique.getD 1 0 = q0.1 := by
  simp [KnotVector.unique, h]

theorem ofUnique_unique (kv : KnotVector) :
    ofUnique kv.unique =
      ⟨0, kv.firstBreak, 1, kv.interior.map (fun q => (q.1, 1)), kv.lastBreak, 1⟩ := by
  simp [ofUnique, KnotVector.unique, List.dropLast_concat, List.map_map]

end GismoC1

namespace GismoC1

/-! ## Claims -/

/-- C1: for interface knot vectors of equal degree `p` with identical unique
break points and interior multiplicities, `createPlusMinusSpace` returns a
plus space of degree `p` whose interior multiplicities are the input's reduced
by exactly one when `p - r ≠ 1` (unchanged when `p - r = 1`), and a minus
space of degree exactly `p - 1` with the same multiplicity rule; the one-sided
boundary overload obeys the same law for a single input knot vector. -/
theorem claim1_plus_minus_space_law (r : ℤ) (p : ℕ) (kv1 kv2 pk1 pk2 kvb pkb : KnotVector)
    (hp1 : kv1.degree = p) (hp2 : kv2.degree = p) (hpb : kvb.degree = p) (hp : 1 ≤ p)
    (hu : kv1.unique = kv2.unique) (hm : kv1.multiplicities = kv2.multiplicities)
    (hint : ∀ q ∈ kv2.interior, 2 ≤ q.2) (hintb : ∀ q ∈ kvb.interior, 2 ≤ q.2) :
    ((createPlusMinusSpaceInt r kv1 kv2 pk1 pk2).1.degree = p ∧
     (createPlusMinusSpaceInt r kv1 kv2 pk1 pk2).2.degree = p - 1) ∧
    ((p : ℤ) - r ≠ 1 →
      (createPlusMinusSpaceInt r kv1 kv2 pk1 pk2).1.interior
        = kv2.interior.map (fun q => (q.1, q.2 - 1)) ∧
      (createPlusMinusSpaceInt r kv1 kv2 pk1 pk2).2.interior
        = kv2.interior.map (fun q => (q.1, q.2 - 1))) ∧
    ((p : ℤ) - r = 1 →
      (createPlusMinusSpaceInt r kv1 kv2 pk1 pk2).1 = kv2 ∧
      (createPlusMinusSpaceInt r kv1 kv2 pk1 pk2).2.interior = kv2.interior) ∧
    ((createPlusMinusSpaceBdy r kvb pkb).1.degree = p ∧
     (createPlusMinusSpaceBdy r kvb pkb).2.degree = p - 1) ∧
    ((p : ℤ) - r ≠ 1 →
      (createPlusMinusSpaceBdy r kvb pkb).1.interior
        = kvb.interior.map (fun q => (q.1, q.2 - 1)) ∧
      (createPlusMinusSpaceBdy r kvb pkb).2.interior
        = kvb.interior.map (fun q => (q.1, q.2 - 1))) ∧
    ((p : ℤ) - r = 1 →
      (createPlusMinusSpaceBdy r kvb pkb).1 = kvb ∧
      (createPlusMinusSpaceBdy r kvb pkb).2.interior = kvb.interior) := by
  have e2 : createPlusMinusSpaceInt r kv1 kv2 pk1 pk2 =
      (if (p : ℤ) - r = 1 then kv2 else kv2.reduceMultiplicity 1,
       if (p : ℤ) - r = 1 then kv2.degreeDecrease 1
       else (kv2.degreeDecrease 1).reduceMultiplicity 1) := by
    simp only [createPlusMinusSpaceInt, hp1, hp2, Nat.max_self, ite_not]
  have eb : createPlusMinusSpaceBdy r kvb pkb =
      (if (p : ℤ) - r = 1 then kvb else kvb.reduceMultiplicity 1,
       if (p : ℤ) - r = 1 then kvb.degreeDecrease 1
       else (kvb.degreeDecrease 1).reduceMultiplicity 1) := by
    simp only [createPlusMinusSpaceBdy, hpb, Nat.max_zero, ite_not]
  rw [e2, eb]
  by_cases hc : (p : ℤ) - r = 1
  · simp only [if_pos hc]
    refine ⟨⟨hp2, ?_⟩, fun hn => absurd hc hn,
      fun _ => by simp [KnotVector.degreeDecrease],
      ⟨hpb, ?_⟩, fun hn => absurd hc hn,
      fun _ => by simp [KnotVector.degreeDecrease]⟩
    · simp [KnotVector.degreeDecrease, hp2]
    · simp [KnotVector.degreeDecrease, hpb]
  · simp only [if_neg hc]
    have h3 : ((kv2.degreeDecrease 1).reduceMultiplicity 1).interior
        = kv2.interior.map (fun q => (q.1, q.2 - 1)) :=
      @reduceMultiplicity_one_interior (kv2.degreeDecrease 1) hint
    have h3b : ((kvb.degreeDecrease 1).reduceMultiplicity 1).interior
        = kvb.interior.map (fun q => (q.1, q.2 - 1)) :=
      @reduceMultiplicity_one_interior (kvb.degreeDecrease 1) hintb
    refine ⟨⟨?_, ?_⟩, fun _ => ⟨reduceMultiplicity_one_interior hint, h3⟩,
      fun hy => absurd hy hc,
      ⟨?_, ?_⟩, fun _ => ⟨reduceMultiplicity_one_interior hintb, h3b⟩,
      fun hy => absurd hy hc⟩ <;>
      simp [KnotVector.reduceMultiplicity, KnotVector.degreeDecrease, hp2, hpb]

/-- C1 witness: the law instantiated at a concrete degree-3 knot vector with
regularity 1. -/
theorem claim1_plus_minus_space_law_witness :
    (createPlusMinusSpaceInt 1 sampleKV sampleKV samplePatchKV samplePatchKV).1.degree = 3 ∧
    (createPlusMinusSpaceInt 1 sampleKV sampleKV samplePatchKV samplePatchKV).2.degree = 2 :=
  (claim1_plus_minus_space_law 1 3 sampleKV sampleKV samplePatchKV samplePatchKV
    sampleKV samplePatchKV rfl rfl rfl (by decide) rfl rfl (by decide) (by decide)).1

/-- C4: for an interface with identical unique break points,
`createGluingDataSpace` returns a knot vector over exactly the shared unique
break points, of degree `p_tilde`, whose interior multiplicities
`p_tilde - r_tilde` realize continuity `r_tilde = p_tilde - 2`. -/
theorem claim4_gluing_data_space (kv1 kv2 pk1 pk2 : KnotVector)
    (hu : kv1.unique = kv2.unique) :
    (createGluingDataSpace kv1 kv2 pk1 pk2).unique = kv2.unique ∧
    (createGluingDataSpace kv1 kv2 pk1 pk2).degree = p_tilde ∧
    (∀ q ∈ (createGluingDataSpace kv1 kv2 pk1 pk2).interior,
      q.2 = p_tilde - r_tilde ∧
      ((createGluingDataSpace kv1 kv2 pk1 pk2).degree : ℤ) - (q.2 : ℤ) = (r_tilde : ℤ)) ∧
    (r_tilde : ℤ) = (p_tilde : ℤ) - 2 := by
  have h2 := ofUnique_unique kv2
  simp only [createGluingDataSpace]
  rw [h2]
  refine ⟨?_, rfl, ?_, by decide⟩
  · simp [KnotVector.unique, KnotVector.degreeIncrease,
      KnotVector.increaseMultiplicity, List.map_map, Function.comp]
  · intro q hq
    simp only [KnotVector.increaseMultiplicity, KnotVector.degreeIncrease,
      List.map_map, List.mem_map, Function.comp] at hq
    obtain ⟨a, _, ha⟩ := hq
    rw [← ha]
    exact ⟨rfl, rfl⟩

/-- C4 witness: the gluing-data space at a concrete matching interface. -/
theorem claim4_gluing_data_space_witness :
    (createGluingDataSpace sampleKV sampleKV samplePatchKV samplePatchKV).degree = p_tilde :=
  (claim4_gluing_data_space sampleKV sampleKV samplePatchKV samplePatchKV rfl).2.1

/-- C7 counterexample: with mismatched unique break points (interior break `3`
versus `2`, equal degrees) the derivations only emit a diagnostic string and
return exactly the knot spaces built from the second side's data as if the
inputs had matched, contradicting the claim that the input is flagged as a
non-recoverable error and not silently patched. -/
theorem claim7_counterexample :
    sampleKVb.unique ≠ sampleKV.unique ∧
    createPlusMinusSpaceIntWarnings sampleKVb sampleKV samplePatchKV samplePatchKV ≠ [] ∧
    createPlusMinusSpaceInt 1 sampleKVb sampleKV samplePatchKV samplePatchKV
      = createPlusMinusSpaceInt 1 sampleKV sampleKV samplePatchKV samplePatchKV ∧
    createGluingDataSpace sampleKVb sampleKV samplePatchKV samplePatchKV
      = createGluingDataSpace sampleKV sampleKV samplePatchKV samplePatchKV := by
  refine ⟨by decide, ?_, by decide, rfl⟩
  simp [createPlusMinusSpaceIntWarnings, sampleKVb, sampleKV, samplePatchKV,
    KnotVector.unique]

/-- C7 (amended): on mismatched unique break points (with equal input degrees
for the plus/minus overload) the derivations emit a `gsInfo` diagnostic but
continue, returning the knot space constructed from the second side's data
exactly as in the matched case. -/
theorem claim7_amended_mismatch_behaviour (r : ℤ) (kv1 kv2 pk1 pk2 : KnotVector)
    (hne : kv1.unique ≠ kv2.unique) (hdeg : kv1.degree = kv2.degree) :
    createPlusMinusSpaceIntWarnings kv1 kv2 pk1 pk2 ≠ [] ∧
    createGluingDataSpaceWarnings kv1 kv2 ≠ [] ∧
    createPlusMinusSpaceInt r kv1 kv2 pk1 pk2 = createPlusMinusSpaceInt r kv2 kv2 pk1 pk2 ∧
    createGluingDataSpace kv1 kv2 pk1 pk2 = createGluingDataSpace kv2 kv2 pk1 pk2 := by
  refine ⟨?_, ?_, ?_, rfl⟩
  · simp [createPlusMinusSpaceIntWarnings, if_pos hne]
  · simp [createGluingDataSpaceWarnings, if_pos hne]
  · simp [createPlusMinusSpaceInt, hdeg]

/-- C7 amended witness: the amended behaviour at the concrete mismatched
interface. -/
theorem claim7_amended_mismatch_behaviour_witness :
    createGluingDataSpaceWarnings sampleKVb sampleKV ≠ [] :=
  (claim7_amended_mismatch_behaviour 1 sampleKVb sampleKV samplePatchKV samplePatchKV
    (by decide) rfl).2.1

end GismoC1

namespace GismoC1

/-- C2 counterexample: a vertex group of two (patch, corner) pairs whose
temporary sub-multipatch reports three interfaces falls through every branch
of the classification: no corner receives any kind tag, contradicting the
claim that otherwise every corner is assigned kind 1 and that every pair in
some vertex group receives exactly one kind tag. -/
theorem claim2_counterexample :
    vertexLoopGroup 2 [sampleTP, sampleTP] (fun _ => 3) [(0, 1), (1, 2)] = [] ∧
    [((0 : ℕ), (1 : ℕ)), (1, 2)] ≠ [] := by
  exact ⟨rfl, by decide⟩

/-- C2 (amended): a singleton group gets kind −1; a larger group gets kind 0
when its size equals the interface count of the temporary sub-multipatch and
kind 1 when its size exceeds that count; when its size is smaller than the
interface count the group is silently skipped and no kind is assigned. -/
theorem claim2_amended_vertex_classification (r : ℤ) (mb : List TPBasis)
    (cf : List ℕ → ℕ) (pc : ℕ × ℕ) (rest : List (ℕ × ℕ)) :
    (rest = [] → vertexLoopGroup r mb cf (pc :: rest)
        = [(pc.1, pc.2, boundaryVertexBasisFor r (mb.getD pc.1 default), -1)]) ∧
    (rest ≠ [] → (pc :: rest).length = cf ((pc :: rest).map Prod.fst) →
      vertexLoopGroup r mb cf (pc :: rest)
        = (pc :: rest).map (fun q => (q.1, q.2, vertexBasisFor r (mb.getD q.1 default), 0))) ∧
    (rest ≠ [] → cf ((pc :: rest).map Prod.fst) < (pc :: rest).length →
      vertexLoopGroup r mb cf (pc :: rest)
        = (pc :: rest).map (fun q => (q.1, q.2, vertexBasisFor r (mb.getD q.1 default), 1))) ∧
    (rest ≠ [] → (pc :: rest).length < cf ((pc :: rest).map Prod.fst) →
      vertexLoopGroup r mb cf (pc :: rest) = []) := by
  cases rest with
  | nil =>
    refine ⟨fun _ => ?_, fun h => absurd rfl h, fun h => absurd rfl h, fun h => absurd rfl h⟩
    simp [vertexLoopGroup]
  | cons q t =>
    have hne : ¬((pc :: q :: t).map Prod.fst).length = 1 := by simp
    have hgt1 : 1 < ((pc :: q :: t).map Prod.fst).length := by simp
    refine ⟨fun h => absurd h (by simp), fun _ hlen => ?_, fun _ hlt => ?_, fun _ hgt => ?_⟩
    · simp only [vertexLoopGroup]
      rw [if_neg hne, if_pos hgt1, if_pos (by rw [List.length_map]; exact hlen)]
    · simp only [vertexLoopGroup]
      rw [if_neg hne, if_pos hgt1,
        if_neg (by simp only [List.length_map]; omega),
        if_pos (by simp only [List.length_map]; omega)]
    · simp only [vertexLoopGroup]
      rw [if_neg hne, if_pos hgt1,
        if_neg (by simp only [List.length_map]; omega),
        if_neg (by simp only [List.length_map]; omega)]

/-- C2 amended witness: a singleton vertex group at a concrete input. -/
theorem claim2_amended_vertex_classification_witness :
    vertexLoopGroup 2 [sampleTP] (fun _ => 0) [(0, 1)]
      = [(0, 1, boundaryVertexBasisFor 2 (([sampleTP] : List TPBasis).getD 0 default), -1)] :=
  (claim2_amended_vertex_classification 2 [sampleTP] (fun _ => 0) (0, 1) []).1 rfl

/-- C6 counterexample: at discrete regularity `r = 1` the vertex-space rule
skips the continuity reduction entirely: for a biquadratic input with interior
continuity 1, the code's vertex basis has degree 4 and interior multiplicity 3
(continuity `4 - 3 = 1`), not the continuity `r - 1 = 0` the claim requires. -/
theorem claim6_counterexample :
    (vertexBasisFor 1 sampleTP).compU.degree = 4 ∧
    (vertexBasisFor 1 sampleTP).compU.interior = [(2, 3)] ∧
    ((4 : ℤ) - 3 ≠ (1 : ℤ) - 1) := by decide

theorem reduceContinuity_reduceContinuity (kv : KnotVector) (a c : ℕ) :
    (kv.reduceContinuity a).reduceContinuity c = kv.reduceContinuity (a + c) := by
  simp [KnotVector.reduceContinuity, List.map_map, Function.comp, Nat.add_assoc]

theorem reduceContinuity_zero (kv : KnotVector) : kv.reduceContinuity 0 = kv := by
  simp [KnotVector.reduceContinuity]

theorem tp_reduceContinuity_add (B : TPBasis) (a c : ℕ) :
    (B.reduceContinuity a).reduceContinuity c = B.reduceContinuity (a + c) := by
  simp [TPBasis.reduceContinuity, reduceContinuity_reduceContinuity]

theorem tp_reduceContinuity_zero (B : TPBasis) : B.reduceContinuity 0 = B := by
  simp [TPBasis.reduceContinuity, reduceContinuity_zero]

theorem tp_elevate2_compU (B : TPBasis) (i : ℕ) :
    ((B.degreeElevate i 0).degreeElevate i 1).compU = B.compU.degreeElevate i := by
  simp [TPBasis.degreeElevate, TPBasis.setComponent, TPBasis.component]

theorem tp_elevate2_compV (B : TPBasis) (i : ℕ) :
    ((B.degreeElevate i 0).degreeElevate i 1).compV = B.compV.degreeElevate i := by
  simp [TPBasis.degreeElevate, TPBasis.setComponent, TPBasis.component]

theorem vertexBasisFor_eq (r : ℤ) (B : TPBasis) :
    vertexBasisFor r B =
      ((B.degreeElevate (p_tilde - 1) 0).degreeElevate (p_tilde - 1) 1).reduceContinuity
        ((if r ≠ 1 then 1 else 0) +
          (if (r_tilde : ℤ) < r - 1 then (r - (r_tilde : ℤ) - 1).toNat else 0)) := by
  by_cases hr : r = 1 <;> by_cases ht : (r_tilde : ℤ) < r - 1 <;>
    simp [vertexBasisFor, hr, ht, tp_reduceContinuity_add, tp_reduceContinuity_zero]

theorem vertexBasisFor_compU (r : ℤ) (B : TPBasis) :
    (vertexBasisFor r B).compU = (B.compU.degreeElevate (p_tilde - 1)).reduceContinuity
      ((if r ≠ 1 then 1 else 0) +
        (if (r_tilde : ℤ) < r - 1 then (r - (r_tilde : ℤ) - 1).toNat else 0)) := by
  rw [vertexBasisFor_eq]
  simp [TPBasis.reduceContinuity, tp_elevate2_compU]

theorem vertexBasisFor_compV (r : ℤ) (B : TPBasis) :
    (vertexBasisFor r B).compV = (B.compV.degreeElevate (p_tilde - 1)).reduceContinuity
      ((if r ≠ 1 then 1 else 0) +
        (if (r_tilde : ℤ) < r - 1 then (r - (r_tilde : ℤ) - 1).toNat else 0)) := by
  rw [vertexBasisFor_eq]
  simp [TPBasis.reduceContinuity, tp_elevate2_compV]

/-- C6 (amended): the vertex basis of every non-boundary (kind 0 or 1) vertex
group member is the patch basis degree-elevated by `p_tilde - 1` in both
directions, with interior continuity then lowered by 1 exactly when `r ≠ 1`,
and lowered further by `r - r_tilde - 1` exactly when `r_tilde < r - 1`. -/
theorem claim6_amended_vertex_basis (r : ℤ) (B : TPBasis) :
    (vertexBasisFor r B).compU.degree = B.compU.degree + (p_tilde - 1) ∧
    (vertexBasisFor r B).compV.degree = B.compV.degree + (p_tilde - 1) ∧
    ((vertexBasisFor r B).compU.interior.map
        (fun q => ((vertexBasisFor r B).compU.degree : ℤ) - (q.2 : ℕ))
      = B.compU.interior.map (fun q => ((B.compU.degree : ℤ) - (q.2 : ℕ))
          - ((if r ≠ 1 then 1 else 0) + (if (r_tilde : ℤ) < r - 1 then r - r_tilde - 1 else 0)))) ∧
    ((vertexBasisFor r B).compV.interior.map
        (fun q => ((vertexBasisFor r B).compV.degree : ℤ) - (q.2 : ℕ))
      = B.compV.interior.map (fun q => ((B.compV.degree : ℤ) - (q.2 : ℕ))
          - ((if r ≠ 1 then 1 else 0) + (if (r_tilde : ℤ) < r - 1 then r - r_tilde - 1 else 0)))) ∧
    (∀ mb cf group a, a ∈ vertexLoopGroup r mb cf group → a.2.2.2 = 0 ∨ a.2.2.2 = 1 →
      a.2.2.1 = vertexBasisFor r (mb.getD a.1 default)) := by
  have hlast : ∀ mb cf group a, a ∈ vertexLoopGroup r mb cf group →
      a.2.2.2 = 0 ∨ a.2.2.2 = 1 → a.2.2.1 = vertexBasisFor r (mb.getD a.1 default) := by
    intro mb cf group a ha hk
    simp only [vertexLoopGroup] at ha
    split_ifs at ha
    · simp only [List.mem_singleton] at ha
      rw [ha] at hk
      simp at hk
    · simp only [List.mem_map] at ha
      obtain ⟨q, _, hq⟩ := ha
      rw [← hq]
    · simp only [List.mem_map] at ha
      obtain ⟨q, _, hq⟩ := ha
      rw [← hq]
    · simp at ha
    · simp at ha
  refine ⟨?_, ?_, ?_, ?_, hlast⟩
  · rw [vertexBasisFor_compU]
    simp [KnotVector.reduceContinuity, KnotVector.degreeElevate]
  · rw [vertexBasisFor_compV]
    simp [KnotVector.reduceContinuity, KnotVector.degreeElevate]
  · rw [vertexBasisFor_compU]
    simp only [KnotVector.reduceContinuity, KnotVector.degreeElevate, List.map_map]
    refine List.map_congr_left ?_
    intro q hq
    simp only [Function.comp_apply]
    split_ifs <;> push_cast <;> omega
  · rw [vertexBasisFor_compV]
    simp only [KnotVector.reduceContinuity, KnotVector.degreeElevate, List.map_map]
    refine List.map_congr_left ?_
    intro q hq
    simp only [Function.comp_apply]
    split_ifs <;> push_cast <;> omega

/-- C6 amended witness: the amended rule at a concrete biquadratic basis and
regularity 2. -/
theorem claim6_amended_vertex_basis_witness :
    (vertexBasisFor 2 sampleTP).compU.degree = sampleTP.compU.degree + (p_tilde - 1) :=
  (claim6_amended_vertex_basis 2 sampleTP).1

/-- C9 counterexample: the loop `for (k = 0; k <= 100; k++)` executes its body
101 times, not 100: at a concrete (empty) input the iteration counter ends at
101. -/
theorem claim9_counterexample :
    (constructAndSolveEquationSystem_2 (fun _ => []) 0 0 []).iters = 101 ∧
    (101 : ℕ) ≠ 100 :=
  ⟨rfl, by decide⟩

theorem foldl_powerStep_iters (LHS : List (List ℚ)) (n : ℕ) (l : List ℕ) :
    ∀ st : PowerIterState,
      (l.foldl (fun st _ => powerStep LHS n st) st).iters = st.iters + l.length := by
  induction l with
  | nil => intro st; simp
  | cons a t ih =>
    intro st
    rw [List.foldl_cons, ih]
    simp only [powerStep, List.length_cons]
    omega

/-- C9 (amended): `constructAndSolveEquationSystem_2` runs its power-iteration
update a fixed 101 times (`k = 0` through `k = 100` inclusive) with no
convergence check and no early termination, for every input. -/
theorem claim9_amended_iteration_count (lambdas : ℕ → List ℚ) (n N : ℕ)
    (points : List (ℚ × ℚ)) :
    (constructAndSolveEquationSystem_2 lambdas n N points).iters = 101 := by
  simp [constructAndSolveEquationSystem_2, foldl_powerStep_iters]

/-- C10: `init()` and `compute()` leave the input multi-patch geometry and the
input multi-basis untouched: every basis adjustment acts on a by-value copy,
and the matrix/bases are the only state written. -/
theorem claim10_init_compute_frame (r : ℤ) (cf : List ℕ → ℕ)
    (ifaceB bdyB verB : ℕ → List (ℕ × ℕ × ℚ)) (s : SplineState) :
    (initSpline r cf s).patches = s.patches ∧
    (initSpline r cf s).multiBasis = s.multiBasis ∧
    (computeSpline ifaceB bdyB verB (initSpline r cf s)).1.patches = s.patches ∧
    (computeSpline ifaceB bdyB verB (initSpline r cf s)).1.multiBasis = s.multiBasis ∧
    (computeSpline ifaceB bdyB verB s).1.patches = s.patches ∧
    (computeSpline ifaceB bdyB verB s).1.multiBasis = s.multiBasis :=
  ⟨rfl, rfl, rfl, rfl, rfl, rfl⟩

end GismoC1

namespace GismoC1

/-- C5: the two-sided local edge space has degree
`max(plus-degree + gluing-degree - 1, minus-degree + gluing-degree)` and the
one-sided boundary variant degree `max(plus-degree, minus-degree)`; with
interior break points present, the continuity at every interior break point is
the minimum of the plus, minus (and, two-sided, gluing) continuities; the
two-sided variant returns identical knot vectors for both sides. -/
theorem claim5_lokal_edge_space
    (kv_plus kv_minus kv_gD pk1 pk2 : KnotVector)
    (mp mm mg : ℕ) (q0 : ℚ × ℕ) (t : List (ℚ × ℕ))
    (hP : kv_plus.interior = q0 :: t) (hb1 : q0.1 ≠ 1)
    (hPall : ∀ q ∈ kv_plus.interior, q.2 = mp)
    (hMne : kv_minus.interior ≠ [])
    (hMall : ∀ q ∈ kv_minus.interior, q.2 = mm)
    (hGne : kv_gD.interior ≠ [])
    (hGall : ∀ q ∈ kv_gD.interior, q.2 = mg)
    (hmp1 : 1 ≤ mp) (hmp2 : mp ≤ kv_plus.degree)
    (hmm1 : 1 ≤ mm) (hmm2 : mm ≤ kv_minus.degree)
    (hmg1 : 1 ≤ mg) (hmg2 : mg ≤ kv_gD.degree) :
    ((createLokalEdgeSpaceInt kv_plus kv_minus kv_gD kv_gD pk1 pk2).1
      = (createLokalEdgeSpaceInt kv_plus kv_minus kv_gD kv_gD pk1 pk2).2) ∧
    ((createLokalEdgeSpaceInt kv_plus kv_minus kv_gD kv_gD pk1 pk2).1.degree
      = max (kv_plus.degree + kv_gD.degree - 1) (kv_minus.degree + kv_gD.degree)) ∧
    (∀ q ∈ (createLokalEdgeSpaceInt kv_plus kv_minus kv_gD kv_gD pk1 pk2).1.interior,
      ((createLokalEdgeSpaceInt kv_plus kv_minus kv_gD kv_gD pk1 pk2).1.degree : ℤ) - (q.2 : ℕ)
        = min ((kv_gD.degree : ℤ) - (mg : ℕ))
            (min ((kv_plus.degree : ℤ) - (mp : ℕ)) ((kv_minus.degree : ℤ) - (mm : ℕ)))) ∧
    ((createLokalEdgeSpaceBdy kv_plus kv_minus pk1).degree
      = max kv_plus.degree kv_minus.degree) ∧
    (∀ q ∈ (createLokalEdgeSpaceBdy kv_plus kv_minus pk1).interior,
      ((createLokalEdgeSpaceBdy kv_plus kv_minus pk1).degree : ℤ) - (q.2 : ℕ)
        = min ((kv_plus.degree : ℤ) - (mp : ℕ)) ((kv_minus.degree : ℤ) - (mm : ℕ))) := by
  have hg1 : kv_plus.unique.getD 1 0 = q0.1 := unique_getD_one hP
  have hmp' : kv_plus.multiplicities.getD 1 0 = mp :=
    multiplicities_getD_one (by rw [hP]; exact List.cons_ne_nil q0 t) hPall
  have hmm' : kv_minus.multiplicities.getD 1 0 = mm := multiplicities_getD_one hMne hMall
  have hmg' : kv_gD.multiplicities.getD 1 0 = mg := multiplicities_getD_one hGne hGall
  simp only [createLokalEdgeSpaceInt, createLokalEdgeSpaceBdy, hg1, hmp', hmm', hmg',
    if_pos hb1, ofUnique_unique kv_plus]
  refine ⟨trivial, ?_, ?_, ?_, ?_⟩
  · simp [KnotVector.increaseMultiplicity, KnotVector.degreeIncrease]
  · intro q hq
    simp only [KnotVector.increaseMultiplicity, KnotVector.degreeIncrease,
      List.map_map, List.mem_map, Function.comp] at hq
    obtain ⟨a, _, ha⟩ := hq
    rw [← ha]
    simp only [KnotVector.increaseMultiplicity, KnotVector.degreeIncrease]
    omega
  · simp [KnotVector.increaseMultiplicity, KnotVector.degreeIncrease]
  · intro q hq
    simp only [KnotVector.increaseMultiplicity, KnotVector.degreeIncrease,
      List.map_map, List.mem_map, Function.comp] at hq
    obtain ⟨a, _, ha⟩ := hq
    rw [← ha]
    simp only [KnotVector.increaseMultiplicity, KnotVector.degreeIncrease]
    omega

/-- C5 witness: the edge-space law at concrete plus/minus/gluing spaces of
degrees 3, 2, 3. -/
theorem claim5_lokal_edge_space_witness :
    (createLokalEdgeSpaceInt sampleKV (⟨2, 0, 3, [(2, 1)], 4, 3⟩ : KnotVector)
        sampleKV sampleKV samplePatchKV samplePatchKV).1.degree
      = max (sampleKV.degree + sampleKV.degree - 1)
          ((⟨2, 0, 3, [(2, 1)], 4, 3⟩ : KnotVector).degree + sampleKV.degree) :=
  (claim5_lokal_edge_space sampleKV ⟨2, 0, 3, [(2, 1)], 4, 3⟩ sampleKV
    samplePatchKV samplePatchKV 2 1 2 (2, 2) [] rfl (by decide) (by decide) (by decide)
    (by decide) (by decide) (by decide) (by decide) (by decide) (by decide)
    (by decide) (by decide) (by decide)).2.1

end GismoC1

namespace GismoC1

theorem enumFrom_map_range {α : Type} (f : ℕ → α) (m : ℕ) :
    ∀ k : ℕ, ((List.range m).map f).enumFrom k
      = (List.range m).map (fun ii => (k + ii, f ii)) := by
  induction m with
  | zero => intro k; simp
  | succ m ih =>
    intro k
    rw [List.range_succ, List.map_append, List.map_append, List.enumFrom_append, ih]
    simp [List.enumFrom_cons]

theorem length_range_blocks {α : Type} (g : ℕ → ℕ → α) (m : ℕ) :
    ∀ n : ℕ, ((List.range n).flatMap (fun jj => (List.range m).map (g jj))).length
      = n * m := by
  intro n
  induction n with
  | zero => simp
  | succ n ih =>
    rw [List.range_succ, List.flatMap_append, List.length_append, ih]
    simp [Nat.succ_mul]

theorem enumFrom_range_blocks {α : Type} (g : ℕ → ℕ → α) (m n : ℕ) :
    ∀ k : ℕ,
      ((List.range n).flatMap (fun jj => (List.range m).map (g jj))).enumFrom k
        = (List.range n).flatMap (fun jj =>
            (List.range m).map (fun ii => (k + (jj * m + ii), g jj ii))) := by
  induction n with
  | zero => intro k; simp
  | succ n ih =>
    intro k
    rw [List.range_succ, List.flatMap_append, List.enumFrom_append, ih,
      length_range_blocks, List.flatMap_append]
    simp [enumFrom_map_range, Nat.add_assoc, List.flatMap_cons]

/-- The interior entries of one patch in closed form: the running row counter
`row_i` at lattice position `(i, j) = (ii + 2, jj + 2)` equals the row-major
index `jj * (dim_u - 4) + ii`. -/
theorem interiorEntriesPatch_eq (sr sc u v : ℕ) :
    interiorEntriesPatch sr sc u v
      = (List.range (v - 4)).flatMap (fun jj =>
          (List.range (u - 4)).map (fun ii =>
            (sr + (jj * (u - 4) + ii), sc + ((jj + 2) * u + (ii + 2)), (1 : ℚ)))) := by
  unfold interiorEntriesPatch
  rw [List.enum_eq_enumFrom, enumFrom_range_blocks, List.map_flatMap]
  simp [List.map_map, Function.comp_def]

theorem interiorPass_eq (ps : List PatchDims) :
    ∀ sr sc : ℕ, interiorPass ps sr sc
      = (List.range ps.length).flatMap (fun np =>
          (List.range ((ps.getD np default).dimV - 4)).flatMap (fun jj =>
            (List.range ((ps.getD np default).dimU - 4)).map (fun ii =>
              ((sr + ((ps.take np).map PatchDims.sizeRows).sum)
                  + (jj * ((ps.getD np default).dimU - 4) + ii),
               (sc + ((ps.take np).map PatchDims.sizeCols).sum)
                  + ((jj + 2) * (ps.getD np default).dimU + (ii + 2)),
               (1 : ℚ))))) := by
  induction ps with
  | nil => intro sr sc; simp [interiorPass]
  | cons q ps ih =>
    intro sr sc
    rw [show interiorPass (q :: ps) sr sc
        = interiorEntriesPatch sr sc q.dimU q.dimV
            ++ interiorPass ps (sr + q.sizeRows) (sc + q.sizeCols) from rfl,
      interiorEntriesPatch_eq, ih, List.length_cons, List.range_succ_eq_map,
      List.flatMap_cons, List.flatMap_map]
    congr 1
    simp [Nat.succ_eq_add_one, List.getD_cons_succ, List.take_succ_cons,
      List.sum_cons, Nat.add_assoc]

/-- C3: the interior pass of `compute` inserts exactly one entry of value 1
for every interior lattice index `(i, j) = (ii + 2, jj + 2)` with
`2 ≤ i < dim_u - 2`, `2 ≤ j < dim_v - 2`, at row
`shift_row + (row-major index)` and column `shift_col + j*dim_u + i`, where
the shifts are the sums of `size_rows()` / `size_cols()` over all prior
patches, and it writes nothing else. -/
theorem claim3_interior_pass (patches : List PatchDims) :
    computeInteriorPass patches
      = (List.range patches.length).flatMap (fun np =>
          (List.range ((patches.getD np default).dimV - 4)).flatMap (fun jj =>
            (List.range ((patches.getD np default).dimU - 4)).map (fun ii =>
              (((patches.take np).map PatchDims.sizeRows).sum
                  + (jj * ((patches.getD np default).dimU - 4) + ii),
               ((patches.take np).map PatchDims.sizeCols).sum
                  + ((jj + 2) * (patches.getD np default).dimU + (ii + 2)),
               (1 : ℚ))))) := by
  rw [computeInteriorPass, interiorPass_eq]
  simp

end GismoC1

namespace GismoC1

theorem pairwise_of_total {α : Type} {R : α → α → Prop} (h : ∀ a b, R a b) :
    ∀ l : List α, l.Pairwise R
  | [] => List.Pairwise.nil
  | a :: t => List.Pairwise.cons (fun b _ => h a b) (pairwise_of_total h t)

theorem phase_block_pairwise (f : ℕ → ComputeEvent) (c : ℕ)
    (hf : ∀ i, phaseOf (f i) = c) (n : ℕ) :
    ((List.range n).map f).Pairwise (fun a b => phaseOf a ≤ phaseOf b) := by
  rw [List.pairwise_map]
  exact pairwise_of_total (fun a b => by rw [hf a, hf b]) _

theorem phase_block_mem (f : ℕ → ComputeEvent) (c : ℕ)
    (hf : ∀ i, phaseOf (f i) = c) (n : ℕ) :
    ∀ e ∈ (List.range n).map f, phaseOf e = c := by
  intro e he
  obtain ⟨i, _, rfl⟩ := List.mem_map.mp he
  exact hf i

theorem pairwise_phase_append {l1 l2 : List ComputeEvent} (c : ℕ)
    (hp1 : l1.Pairwise (fun a b => phaseOf a ≤ phaseOf b))
    (hp2 : l2.Pairwise (fun a b => phaseOf a ≤ phaseOf b))
    (hub : ∀ e ∈ l1, phaseOf e ≤ c) (hlb : ∀ e ∈ l2, c ≤ phaseOf e) :
    (l1 ++ l2).Pairwise (fun a b => phaseOf a ≤ phaseOf b) :=
  List.pairwise_append.mpr ⟨hp1, hp2, fun a ha b hb => le_trans (hub a ha) (hlb b hb)⟩

theorem phase_ge_append {c : ℕ} {l1 l2 : List ComputeEvent}
    (h1 : ∀ e ∈ l1, c ≤ phaseOf e) (h2 : ∀ e ∈ l2, c ≤ phaseOf e) :
    ∀ e ∈ l1 ++ l2, c ≤ phaseOf e := by
  intro e he
  rcases List.mem_append.mp he with h | h
  · exact h1 e h
  · exact h2 e h

theorem count_compress_block (f : ℕ → ComputeEvent)
    (hf : ∀ i, f i ≠ ComputeEvent.compress) (n : ℕ) :
    ((List.range n).map f).count ComputeEvent.compress = 0 := by
  rw [List.count_eq_zero]
  intro hmem
  obtain ⟨i, _, hi⟩ := List.mem_map.mp hmem
  exact hf i hi

/-- C8: the trace of `compute()` is: the interior pass over every patch, then
the edge builders over all interfaces, then over all boundaries, then the
vertex builders over all vertex groups, then exactly one compression at the
very end; no event follows the compression and phases never decrease along
the trace. -/
theorem claim8_compute_order (ifaceB bdyB verB : ℕ → List (ℕ × ℕ × ℚ)) (s : SplineState) :
    ((computeSpline ifaceB bdyB verB s).2.count ComputeEvent.compress = 1) ∧
    ((computeSpline ifaceB bdyB verB s).2.getLast? = some ComputeEvent.compress) ∧
    (∀ e ∈ (computeSpline ifaceB bdyB verB s).2.dropLast, e ≠ ComputeEvent.compress) ∧
    ((computeSpline ifaceB bdyB verB s).2.Pairwise (fun a b => phaseOf a ≤ phaseOf b)) := by
  have htr : (computeSpline ifaceB bdyB verB s).2
      = (List.range s.patches.nPatches).map ComputeEvent.interior ++
        ((List.range s.patches.interfaces.length).map ComputeEvent.interfaceEdge ++
         ((List.range s.patches.boundaries.length).map ComputeEvent.boundaryEdge ++
          ((List.range s.patches.vertices.length).map ComputeEvent.vertex ++
           [ComputeEvent.compress]))) := by
    simp [computeSpline, List.append_assoc]
  have hleft : (computeSpline ifaceB bdyB verB s).2
      = ((List.range s.patches.nPatches).map ComputeEvent.interior ++
         (List.range s.patches.interfaces.length).map ComputeEvent.interfaceEdge ++
         (List.range s.patches.boundaries.length).map ComputeEvent.boundaryEdge ++
         (List.range s.patches.vertices.length).map ComputeEvent.vertex) ++
        [ComputeEvent.compress] := by
    rw [htr]
    simp [List.append_assoc]
  refine ⟨?_, ?_, ?_, ?_⟩
  · rw [htr]
    simp [List.count_append,
      count_compress_block ComputeEvent.interior (fun i => by simp),
      count_compress_block ComputeEvent.interfaceEdge (fun i => by simp),
      count_compress_block ComputeEvent.boundaryEdge (fun i => by simp),
      count_compress_block ComputeEvent.vertex (fun i => by simp)]
  · rw [hleft]
    exact List.getLast?_concat _
  · rw [hleft, List.dropLast_concat]
    intro e he
    simp only [List.mem_append, List.mem_map] at he
    rcases he with (((⟨i, _, rfl⟩ | ⟨i, _, rfl⟩) | ⟨i, _, rfl⟩) | ⟨i, _, rfl⟩) <;> simp
  · rw [htr]
    refine pairwise_phase_append 0
      (phase_block_pairwise ComputeEvent.interior 0 (fun i => rfl) _) ?_
      (fun e he => le_of_eq (phase_block_mem ComputeEvent.interior 0 (fun i => rfl) _ e he))
      ?_
    · refine pairwise_phase_append 1
        (phase_block_pairwise ComputeEvent.interfaceEdge 1 (fun i => rfl) _) ?_
        (fun e he => le_of_eq (phase_block_mem ComputeEvent.interfaceEdge 1 (fun i => rfl) _ e he))
        ?_
      · refine pairwise_phase_append 2
          (phase_block_pairwise ComputeEvent.boundaryEdge 2 (fun i => rfl) _) ?_
          (fun e he => le_of_eq (phase_block_mem ComputeEvent.boundaryEdge 2 (fun i => rfl) _ e he))
          ?_
        · refine pairwise_phase_append 3
            (phase_block_pairwise ComputeEvent.vertex 3 (fun i => rfl) _) ?_
            (fun e he => le_of_eq (phase_block_mem ComputeEvent.vertex 3 (fun i => rfl) _ e he))
            ?_
          · simp
          · intro e he
            simp only [List.mem_singleton] at he
            rw [he]
            decide
        · refine phase_ge_append (fun e he => ?_) (fun e he => ?_)
          · rw [phase_block_mem ComputeEvent.vertex 3 (fun i => rfl) _ e he]
            omega
          · simp only [List.mem_singleton] at he
            rw [he]
            decide
      · refine phase_ge_append (fun e he => ?_) (phase_ge_append (fun e he => ?_) (fun e he => ?_))
        · rw [phase_block_mem ComputeEvent.boundaryEdge 2 (fun i => rfl) _ e he]
          omega
        · rw [phase_block_mem ComputeEvent.vertex 3 (fun i => rfl) _ e he]
          omega
        · simp only [List.mem_singleton] at he
          rw [he]
          simp [phaseOf]
    · refine phase_ge_append (fun e he => ?_)
        (phase_ge_append (fun e he => ?_) (phase_ge_append (fun e he => ?_) (fun e he => ?_)))
      · rw [phase_block_mem ComputeEvent.interfaceEdge 1 (fun i => rfl) _ e he]
        omega
      · rw [phase_block_mem ComputeEvent.boundaryEdge 2 (fun i => rfl) _ e he]
        omega
      · rw [phase_block_mem ComputeEvent.vertex 3 (fun i => rfl) _ e he]
        omega
      · simp only [List.mem_singleton] at he
        rw [he]
        decide

end GismoC1

namespace GismoC1

/-- C8 witness: the compute-order properties at a concrete single-patch state
with no interfaces, boundaries or vertex groups and trivial builders. -/
theorem claim8_compute_order_witness :
    (computeSpline (fun _ => []) (fun _ => []) (fun _ => [])
        (⟨⟨1, [sampleTP], [], [], []⟩, [sampleTP], [], 0, 0, [], false⟩ :
          SplineState)).2.count ComputeEvent.compress = 1 :=
  (claim8_compute_order (fun _ => []) (fun _ => []) (fun _ => [])
    ⟨⟨1, [sampleTP], [], [], []⟩, [sampleTP], [], 0, 0, [], false⟩).1

end GismoC1
